import Mathlib

/-!
Shallow embedding of the `peektab` command-line tool (files
`src/peektab/utils.py` and `src/peektab/cli.py`) in Lean 4, together with
theorems settling the specification claims about it.

Modelling conventions:
* Python strings are modelled as `List Char` where character-level work is
  needed, `String` otherwise.
* A file on disk is `Option (List Nat)`: `none` when the file cannot be
  opened, `some bytes` otherwise.  Text-mode reading with
  `encoding="utf-8", errors="ignore"` is modelled by `utf8DecodeIgnore`.
* Python `int` is `Int`; exceptions become `Except`; process exits become
  explicit result constructors.
-/

namespace Peektab

/-! ### Python string primitives -/

/-- The ASCII whitespace characters recognised by Python `str.strip()`
(space, tab, newline, carriage return, vertical tab, form feed). -/
def isPySpace (c : Char) : Bool :=
  c = ' ' || c = '\t' || c = '\n' || c = '\x0d' || c = '\x0b' || c = '\x0c'

/-- Python `str.strip()`: remove leading and trailing whitespace. -/
def pyStrip (cs : List Char) : List Char :=
  ((cs.dropWhile isPySpace).reverse.dropWhile isPySpace).reverse

/-! ### Delimiter sniffer (`utils.sniff_delimiter`) -/

/-- The body of the sniffer loop for one stripped, non-blank line: build
`counts = {",": c, "\t": t, ";": m}` and return
`max(counts, key=counts.get) if any(counts.values()) else ","`.
Python `max` with a key returns the first key attaining the maximum in
dict-iteration order, i.e. comma, then tab, then semicolon. -/
def chooseDelim (line : List Char) : String :=
  let c := line.count ','
  let t := line.count '\t'
  let m := line.count ';'
  if c = 0 && t = 0 && m = 0 then ","
  else if t > c then (if m > t then ";" else "\t")
  else if m > c then ";"
  else ","

/-- The scan of the sniffer over the decoded lines of the file: strip each line,
skip it when blank, and decide on the first non-blank line; return comma at
end of file. -/
def sniffLines : List (List Char) → String
  | [] => ","
  | l :: rest =>
    let s := pyStrip l
    if s.isEmpty then sniffLines rest else chooseDelim s

/-- Worker for `splitLinesPy`: accumulate the current line in reverse. -/
def splitLinesGo : List Char → List Char → List (List Char)
  | [], acc => if acc.isEmpty then [] else [acc.reverse]
  | '\x0d' :: '\n' :: rest, acc => acc.reverse :: splitLinesGo rest []
  | '\x0d' :: rest, acc => acc.reverse :: splitLinesGo rest []
  | '\n' :: rest, acc => acc.reverse :: splitLinesGo rest []
  | c :: rest, acc => splitLinesGo rest (c :: acc)

/-- Python text-mode line iteration with universal newlines: split on
`\r\n`, `\r`, or `\n`; a trailing terminator does not produce a final
empty line.  (The line terminators themselves are stripped away later by
`pyStrip`, so dropping them here is faithful.) -/
def splitLinesPy (cs : List Char) : List (List Char) :=
  splitLinesGo cs []

/-- One byte is a UTF-8 continuation byte. -/
def isCont (b : Nat) : Bool :=
  0x80 ≤ b && b ≤ 0xBF

/-- Admissible first continuation byte of a three-byte UTF-8 sequence
(excludes overlong encodings and surrogates). -/
def cont3fst (b b1 : Nat) : Bool :=
  if b = 0xE0 then 0xA0 ≤ b1 && b1 ≤ 0xBF
  else if b = 0xED then 0x80 ≤ b1 && b1 ≤ 0x9F
  else isCont b1

/-- Admissible first continuation byte of a four-byte UTF-8 sequence
(excludes overlong encodings and code points beyond U+10FFFF). -/
def cont4fst (b b1 : Nat) : Bool :=
  if b = 0xF0 then 0x90 ≤ b1 && b1 ≤ 0xBF
  else if b = 0xF4 then 0x80 ≤ b1 && b1 ≤ 0x8F
  else isCont b1

/-- Fuel-based worker for `utf8DecodeIgnore`; the fuel only bounds the
recursion depth (one unit per byte consumed), it never changes the result
when it starts at the byte count. -/
def utf8Go : Nat → List Nat → List Char
  | 0, _ => []
  | _, [] => []
  | fuel + 1, b :: rest =>
    if b < 0x80 then Char.ofNat b :: utf8Go fuel rest
    else if 0xC2 ≤ b && b ≤ 0xDF then
      match rest with
      | b1 :: rest1 =>
        if isCont b1 then
          Char.ofNat ((b - 0xC0) * 64 + (b1 - 0x80)) :: utf8Go fuel rest1
        else utf8Go fuel (b1 :: rest1)
      | [] => []
    else if 0xE0 ≤ b && b ≤ 0xEF then
      match rest with
      | b1 :: rest1 =>
        if cont3fst b b1 then
          match rest1 with
          | b2 :: rest2 =>
            if isCont b2 then
              Char.ofNat ((b - 0xE0) * 4096 + (b1 - 0x80) * 64 + (b2 - 0x80)) ::
                utf8Go fuel rest2
            else utf8Go fuel (b2 :: rest2)
          | [] => []
        else utf8Go fuel (b1 :: rest1)
      | [] => []
    else if 0xF0 ≤ b && b ≤ 0xF4 then
      match rest with
      | b1 :: rest1 =>
        if cont4fst b b1 then
          match rest1 with
          | b2 :: rest2 =>
            if isCont b2 then
              match rest2 with
              | b3 :: rest3 =>
                if isCont b3 then
                  Char.ofNat ((b - 0xF0) * 262144 + (b1 - 0x80) * 4096 +
                      (b2 - 0x80) * 64 + (b3 - 0x80)) :: utf8Go fuel rest3
                else utf8Go fuel (b3 :: rest3)
              | [] => []
            else utf8Go fuel (b2 :: rest2)
          | [] => []
        else utf8Go fuel (b1 :: rest1)
      | [] => []
    else utf8Go fuel rest

/-- UTF-8 decoding with the Python handler `errors="ignore"`: well-formed
sequences decode to their code point, ill-formed bytes are silently
dropped (on a truncated or invalid sequence the consumed leading bytes are
skipped and decoding resumes at the offending byte). -/
def utf8DecodeIgnore (l : List Nat) : List Char :=
  utf8Go l.length l

/-- Model of `utils.sniff_delimiter`: open the file (`with open(path, "r",
encoding="utf-8", errors="ignore")`), scan its lines, and return the
chosen delimiter.  An unopenable file (`none`) makes `open` raise, which
propagates out of the function. -/
def sniff_delimiter (file : Option (List Nat)) : Except Unit String :=
  match file with
  | none => Except.error ()
  | some bytes => Except.ok (sniffLines (splitLinesPy (utf8DecodeIgnore bytes)))

/-! ### Format detection (`utils.detect_format`) and path splitting -/

/-- Python `str.lower()` (ASCII-faithful). -/
def pyLower (s : String) : String :=
  String.mk (s.toList.map Char.toLower)

/-- Index of the last occurrence of `c` in `cs`, if any (Python `str.rfind`). -/
def lastIdxOf (c : Char) (cs : List Char) : Option Nat :=
  match cs.reverse.findIdx? (fun x => x = c) with
  | none => none
  | some i => some (cs.length - 1 - i)

/-- Python `os.path.splitext` for POSIX paths: split off the extension at the last
dot of the basename, except that leading dots of the basename never start
an extension (`.bashrc` has none). -/
def pySplitext (p : String) : String × String :=
  let cs := p.toList
  let sepIdx : Int :=
    match lastIdxOf '/' cs with
    | none => -1
    | some i => (i : Int)
  match lastIdxOf '.' cs with
  | none => (p, "")
  | some di =>
    if sepIdx < (di : Int) then
      let start := (sepIdx + 1).toNat
      if ((cs.drop start).take (di - start)).any (fun c => c ≠ '.') then
        (String.mk (cs.take di), String.mk (cs.drop di))
      else (p, "")
    else (p, "")

/-- The extension-based arm of `utils.detect_format`:
`ext = os.path.splitext(path)[1].lower()`, then the three extension groups,
falling back to `"csv"`. -/
def detectFromExt (path : String) : String :=
  let ext := pyLower (pySplitext path).2
  if ext = ".csv" ∨ ext = ".tsv" then "csv"
  else if ext = ".jsonl" ∨ ext = ".ndjson" then "ndjson"
  else if ext = ".parquet" ∨ ext = ".pq" then "parquet"
  else "csv"

/-- Model of `utils.detect_format(path, fmt)`: `if fmt: return fmt.lower()` — a
non-empty override is lowercased and returned verbatim (`None` and the
empty string are both falsy); otherwise the extension decides. -/
def detect_format (path : String) (fmt : Option String) : String :=
  match fmt with
  | some f => if f ≠ "" then pyLower f else detectFromExt path
  | none => detectFromExt path

/-! ### Frame loading (`utils.read_frame`) -/

/-- The engine call `read_frame` delegates to once the format is resolved. -/
inductive LoadAction where
  | csvRead (delimiter : String) (inferSchemaLength : Nat)
  | ndjsonRead
  | parquetRead
deriving DecidableEq

/-- How `read_frame` can fail: the `ValueError("Unsupported format: ...")`
raise, or an I/O error propagating out of `open` in the delimiter sniffer. -/
inductive LoadError where
  | unsupportedFormat (fmt : String)
  | ioError
deriving DecidableEq

/-- Model of `utils.read_frame(path, fmt, delimiter, infer_schema_length)`,
up to the point of delegation: resolve the format, sniff the delimiter for
csv when none is given (`file` is the file the path denotes), and either
name the engine reader invoked or fail. -/
def read_frame (file : Option (List Nat)) (path : String) (fmt : Option String)
    (delimiter : Option String) (inferSchemaLength : Nat) :
    Except LoadError LoadAction :=
  let f := detect_format path fmt
  if f = "csv" then
    match delimiter with
    | some d => Except.ok (LoadAction.csvRead d inferSchemaLength)
    | none =>
      match sniff_delimiter file with
      | Except.ok d => Except.ok (LoadAction.csvRead d inferSchemaLength)
      | Except.error _ => Except.error LoadError.ioError
  else if f = "ndjson" then Except.ok LoadAction.ndjsonRead
  else if f = "parquet" then Except.ok LoadAction.parquetRead
  else Except.error (LoadError.unsupportedFormat f)

/-! ### The `convert` command (`cli.convert`) -/

/-- Python `str.lstrip(".")`: drop all leading dots. -/
def pyLStripDots (s : String) : String :=
  String.mk (s.toList.dropWhile (fun c => c = '.'))

/-- The destination-alias map `{"jsonl": "ndjson", "pq": "parquet"}.get(f, f)`. -/
def aliasDst (f : String) : String :=
  if f = "jsonl" then "ndjson" else if f = "pq" then "parquet" else f

/-- Resolution `out_fmt = fmt_dst or os.path.splitext(dst)[1].lower().lstrip(".")`,
then the alias map.  As with every Python `or`, an empty-string override
falls through to the extension. -/
def resolveOutFmt (fmtDst : Option String) (dst : String) : String :=
  let raw :=
    match fmtDst with
    | some f => if f ≠ "" then f else pyLStripDots (pyLower (pySplitext dst).2)
    | none => pyLStripDots (pyLower (pySplitext dst).2)
  aliasDst raw

/-- Observable outcome of the `convert` command after the source frame has
been loaded: which writer ran (and with which separator, for csv), or the
`typer.Exit(2)` taken on an unsupported destination format — in which case
no destination file is written. -/
inductive ConvertOutcome where
  | wroteCsv (dst sep : String)
  | wroteParquet (dst : String)
  | wroteNdjson (dst : String)
  | exited (code : Nat)
deriving DecidableEq

/-- Model of `cli.convert` from the point where the source frame `df` is in hand:
resolve the destination format and dispatch on it.  `sep = delimiter or ","`. -/
def convert (fmtDst : Option String) (dst : String) (delimiter : Option String) :
    ConvertOutcome :=
  let f := resolveOutFmt fmtDst dst
  if f = "csv" then
    let sep :=
      match delimiter with
      | some d => if d ≠ "" then d else ","
      | none => ","
    ConvertOutcome.wroteCsv dst sep
  else if f = "parquet" then ConvertOutcome.wroteParquet dst
  else if f = "ndjson" then ConvertOutcome.wroteNdjson dst
  else ConvertOutcome.exited 2

/-! ### Cell values and `utils.repr_cell` -/

/-- A floating-point value, modelled as the decimal value `m * 10 ^ e`
(the display path only ever sees the decimal rendering, so a decimal
significand/exponent pair is the faithful abstraction for `%.6g`). -/
structure PyFloat where
  m : Int
  e : Int
deriving DecidableEq

/-- A Python value appearing in a frame cell, as `repr_cell` discriminates
them: `None`, a float, an int, a str, a compound value (`list`, `tuple`,
`set` or `dict`, carried as its Python `str()` form), or anything else
(also carried as its `str()` form). -/
inductive Cell where
  | null
  | float (x : PyFloat)
  | int (n : Int)
  | str (s : String)
  | compound (s : String)
  | other (s : String)
deriving DecidableEq

/-- Fuel-based decimal digit counter (the fuel, started at `n`, strictly
bounds the number of divisions by ten). -/
def natDigitsGo : Nat → Nat → Nat
  | 0, _ => 1
  | fuel + 1, n => if n < 10 then 1 else natDigitsGo fuel (n / 10) + 1

/-- Number of decimal digits of a natural number (with one digit for 0). -/
def natDigits (n : Nat) : Nat :=
  natDigitsGo n n

/-- Fuel-based worker for `stripZeros`. -/
def stripZerosGo : Nat → Nat → Int → Nat × Int
  | 0, a, e => (a, e)
  | fuel + 1, a, e =>
    if a ≠ 0 ∧ a % 10 = 0 then stripZerosGo fuel (a / 10) (e + 1) else (a, e)

/-- Strip trailing decimal zeros off a significand, bumping the exponent. -/
def stripZeros (a : Nat) (e : Int) : Nat × Int :=
  stripZerosGo a a e

/-- Python `f"{val:.6g}"`: round to 6 significant digits (half-even),
choose the fixed or the exponential form by the decimal exponent
(exponential iff it is below -4 or at least 6), elide trailing zeros,
and print exponents with a sign and at least two digits. -/
def formatG6 (x : PyFloat) : String :=
  if x.m = 0 then "0"
  else
    let sign := if x.m < 0 then "-" else ""
    let a0 := x.m.natAbs
    let d := natDigits a0
    let r1 : Nat × Int :=
      if d ≤ 6 then (a0, x.e)
      else
        let drop := d - 6
        let p := 10 ^ drop
        let q := a0 / p
        let r := a0 % p
        let half := p / 2
        let q2 :=
          if r > half then q + 1
          else if r < half then q
          else if q % 2 = 0 then q else q + 1
        (q2, x.e + drop)
    let r2 : Nat × Int :=
      if natDigits r1.1 > 6 then (r1.1 / 10, r1.2 + 1) else r1
    let r3 := stripZeros r2.1 r2.2
    let a3 := r3.1
    let e3 := r3.2
    let decExp : Int := ((natDigits a3 - 1 : Nat) : Int) + e3
    if decExp < -4 ∨ 6 ≤ decExp then
      let ds := toString a3
      let mant := if ds.length = 1 then ds else ds.take 1 ++ "." ++ ds.drop 1
      let esign := if decExp < 0 then "-" else "+"
      let eabs := decExp.natAbs
      let estr := if eabs < 10 then "0" ++ toString eabs else toString eabs
      sign ++ mant ++ "e" ++ esign ++ estr
    else
      if 0 ≤ e3 then sign ++ toString (a3 * 10 ^ e3.toNat)
      else
        let k := (-e3).toNat
        let ds := toString a3
        if k < ds.length then
          sign ++ String.mk (ds.toList.take (ds.length - k)) ++ "." ++
            String.mk (ds.toList.drop (ds.length - k))
        else sign ++ "0." ++ String.mk (List.replicate (k - ds.length) '0') ++ ds

/-- The string `repr_cell` returns for `None` — the literal three-character
string in the source (`"âˆ…"`, a mojibake rendering of the
empty-set sign). -/
def nullMarker : String :=
  "âˆ…"

/-- Model of `utils.repr_cell(val)`: `None` gets the marker, floats get `.6g`
formatting, `list`/`tuple`/`set`/`dict` get their `str()` form truncated to
77 characters plus `"..."` when it exceeds 80 characters, everything else
gets `str(val)` unmodified (for an int that is its decimal form, for a str
the string itself). -/
def repr_cell : Cell → String
  | Cell.null => nullMarker
  | Cell.float x => formatG6 x
  | Cell.int n => toString n
  | Cell.str s => s
  | Cell.compound s =>
    if s.length ≤ 80 then s else String.mk (s.toList.take 77) ++ "..."
  | Cell.other s => s

/-! ### Frames and `utils.render_table` -/

/-- A polars dtype, as far as `is_numeric_dtype` / `is_utf8_dtype`
discriminate them.  `otherTy` carries the `repr` string of the dtype, on which
the substring fallback of the source operates. -/
inductive DType where
  | int8 | int16 | int32 | int64
  | uint8 | uint16 | uint32 | uint64
  | float32 | float64
  | decimal (precision scale : Nat)
  | utf8
  | boolean
  | date
  | otherTy (reprStr : String)
deriving DecidableEq

/-- The `repr` string of a dtype, for the substring fallback below. -/
def dtypeRepr : DType → String
  | DType.int8 => "Int8"
  | DType.int16 => "Int16"
  | DType.int32 => "Int32"
  | DType.int64 => "Int64"
  | DType.uint8 => "UInt8"
  | DType.uint16 => "UInt16"
  | DType.uint32 => "UInt32"
  | DType.uint64 => "UInt64"
  | DType.float32 => "Float32"
  | DType.float64 => "Float64"
  | DType.decimal p s => "Decimal(precision=" ++ toString p ++ ", scale=" ++ toString s ++ ")"
  | DType.utf8 => "String"
  | DType.boolean => "Boolean"
  | DType.date => "Date"
  | DType.otherTy r => r

/-- One list starts with another. -/
def startsWith : List Char → List Char → Bool
  | [], _ => true
  | _ :: _, [] => false
  | a :: as, b :: bs => a = b && startsWith as bs

/-- Substring search on character lists. -/
def containsSub (needle : List Char) : List Char → Bool
  | [] => needle.isEmpty
  | b :: bs => startsWith needle (b :: bs) || containsSub needle bs

/-- Python `needle in haystack` on strings. -/
def pyContains (haystack needle : String) : Bool :=
  containsSub needle.toList haystack.toList

/-- Model of `utils.is_numeric_dtype`: membership in `NUMERIC_DTYPES` (the integer,
unsigned-integer and float dtypes, plus `Decimal`), or the permissive
fallback `"Decimal" in repr(dt)` for parameterized decimals. -/
def is_numeric_dtype (dt : DType) : Bool :=
  (match dt with
   | DType.int8 | DType.int16 | DType.int32 | DType.int64 => true
   | DType.uint8 | DType.uint16 | DType.uint32 | DType.uint64 => true
   | DType.float32 | DType.float64 => true
   | DType.decimal _ _ => true
   | _ => false)
  || pyContains (dtypeRepr dt) "Decimal"

/-- Model of `utils.is_utf8_dtype`: `dt == pl.Utf8`. -/
def is_utf8_dtype (dt : DType) : Bool :=
  dt = DType.utf8

/-- The slice of a polars `DataFrame` this tool reads: ordered column
names, their dtypes, and the rows. -/
structure Frame where
  colNames : List String
  dtypes : List DType
  rows : List (List Cell)

/-- polars `df.height`: the number of rows. -/
def Frame.height (df : Frame) : Nat :=
  df.rows.length

/-- polars `df.head(n)`: the first `n` rows for `n ≥ 0`; for negative `n`,
all rows except the last `|n|` (the documented polars negative-`n` behavior). -/
def plHead (df : Frame) (n : Int) : Frame :=
  { df with
    rows :=
      if 0 ≤ n then df.rows.take n.toNat
      else df.rows.take (df.rows.length - (-n).toNat) }

/-- The observable content of the rich table `render_table` builds and
prints: ordered column headers and the grid of already-formatted cell
strings.  Box style, width capping and the optional title are styling
applied by the rendering library and carry no further data. -/
structure RenderedTable where
  headers : List String
  cells : List (List String)
deriving DecidableEq

/-- Model of `utils.render_table(df, max_rows, ...)`: truncate to `max_rows` rows
via `df.head` when `df.height > max_rows`, one column per frame column
headed by the column name, one table row per remaining frame row with
every cell put through `repr_cell`. -/
def render_table (df : Frame) (max_rows : Int) : RenderedTable :=
  let df2 := if max_rows < (df.height : Int) then plHead df max_rows else df
  { headers := df2.colNames,
    cells := df2.rows.map (fun r => r.map repr_cell) }

/-! ### The `sample` command (`cli.sample`) -/

/-- Outcome of a command invocation: the rendered output, or an explicit
`typer.Exit` with a status code. -/
inductive CmdOutcome (α : Type) where
  | ok (a : α)
  | exited (code : Nat)
  | raised
deriving DecidableEq

/-- Clamping `n = min(n, df.height) if df.height else 0`: the effective sample
size after clamping. -/
def sampleEffSize (n : Int) (height : Nat) : Int :=
  if height ≠ 0 then min n (height : Int) else 0

/-- polars `df.sample(n=..., seed=...)`: raises for a negative `n` (a
negative count cannot convert to the unsigned size polars requires); for a
non-negative `n` it is a deterministic function of frame, size and seed,
delegated here to the selection parameter `pick` (seed `none` is the
unseeded call). -/
def plSample (pick : Frame → Nat → Option Int → Frame) (df : Frame) (n : Int)
    (seed : Option Int) : Except Unit Frame :=
  if 0 ≤ n then Except.ok (pick df n.toNat seed) else Except.error ()

/-- The CLI default for `--seed`. -/
def defaultSeed : Option Int :=
  some 42

/-- Model of `cli.sample` from the point where the frame is loaded,
parametrized by the engine selection function `pick` (see `plSample`).
Clamp the size, exit with status 1 when it is zero (after the
"Empty dataset." panel), otherwise call `df.sample` — seeded or unseeded
depending on `seed` — and render; an exception from the engine (a negative
clamped size) is not caught by the command and propagates (`raised`). -/
def sample (pick : Frame → Nat → Option Int → Frame)
    (df : Frame) (n : Int) (seed : Option Int) : CmdOutcome RenderedTable :=
  let n2 := sampleEffSize n df.height
  if n2 = 0 then CmdOutcome.exited 1
  else
    match (match seed with
           | some v => plSample pick df n2 (some v)
           | none => plSample pick df n2 none) with
    | Except.ok s => CmdOutcome.ok (render_table s n2)
    | Except.error _ => CmdOutcome.raised

/-! ### The `stats` command (`cli.stats`) -/

/-- The cell values of column `i` of the frame. -/
def colValues (df : Frame) (i : Nat) : List Cell :=
  df.rows.map (fun r => r.getD i Cell.null)

/-- The names of the numeric columns,
`[c for c, dt in zip(df.columns, df.dtypes) if is_numeric_dtype(dt)]`. -/
def numColNames (df : Frame) : List String :=
  ((df.colNames.zip df.dtypes).filter (fun p => is_numeric_dtype p.2)).map (fun p => p.1)

/-- One step of the grouping fold: bump the count of an already-seen value
or append a fresh group. -/
def dcStep (acc : List (Cell × Nat)) (v : Cell) : List (Cell × Nat) :=
  if acc.any (fun p => p.1 = v) then
    acc.map (fun p => if p.1 = v then (p.1, p.2 + 1) else p)
  else acc ++ [(v, 1)]

/-- polars `group_by(c).len()`: the distinct values with their multiplicities
(modelled in first-occurrence order; the claims below depend only on which
pairs occur, never on their order). -/
def distinctCounts (vals : List Cell) : List (Cell × Nat) :=
  vals.foldl dcStep []

/-- Insert into a count-descending list, keeping it sorted (stable). -/
def insertDesc (x : Cell × Nat) : List (Cell × Nat) → List (Cell × Nat)
  | [] => [x]
  | y :: ys => if y.2 < x.2 then x :: y :: ys else y :: insertDesc x ys

/-- polars `sort("len", descending=True)`. -/
def sortByCountDesc : List (Cell × Nat) → List (Cell × Nat)
  | [] => []
  | x :: xs => insertDesc x (sortByCountDesc xs)

/-- polars `head(n)` on a plain list (negative `n` keeps all but the last
`|n|` entries, as for frames). -/
def plHeadList {α : Type} (l : List α) (n : Int) : List α :=
  if 0 ≤ n then l.take n.toNat else l.take (l.length - (-n).toNat)

/-- The frequency table `stats` builds for one text column:
`df.select(col).drop_nulls().group_by(c).len().sort("len", descending=True).head(topk)`. -/
def freqTable (vals : List Cell) (topk : Int) : List (Cell × Nat) :=
  plHeadList (sortByCountDesc (distinctCounts (vals.filter (fun v => v ≠ Cell.null)))) topk

/-- One observable emission of the `stats` command: the numeric-summary
table (abstracted by the numeric columns it covers), the yellow
"No numeric columns detected." panel, or one per-column top-`k` table. -/
inductive StatsEvent where
  | numericSummary (cols : List String)
  | noNumericWarning
  | topkTable (col : String) (freq : List (Cell × Nat))
deriving DecidableEq

/-- Model of `cli.stats` from the point where the frame is loaded: one numeric
summary when there are numeric columns, else the warning panel; then, for
each Utf8 column in order, its frequency table — rendered only when
`freq.height` is non-zero. -/
def stats (df : Frame) (topk : Int) : List StatsEvent :=
  (if numColNames df ≠ [] then [StatsEvent.numericSummary (numColNames df)]
   else [StatsEvent.noNumericWarning])
  ++ ((df.colNames.zip df.dtypes).enum.filter (fun p => is_utf8_dtype p.2.2)).filterMap
      (fun p =>
        if (freqTable (colValues df p.1) topk).length ≠ 0 then
          some (StatsEvent.topkTable p.2.1 (freqTable (colValues df p.1) topk))
        else none)

/-! ### Concrete fixtures used by witnesses and counterexamples -/

/-- A 10-row, one-column integer frame. -/
def df10 : Frame :=
  ⟨["v"], [DType.int64], (List.range 10).map (fun i => [Cell.int (Int.ofNat i)])⟩

/-- A frame with one Utf8 column and no rows. -/
def dfEmptyA : Frame :=
  ⟨["a"], [DType.utf8], []⟩

/-- A frame with two Utf8 columns and no numeric column; the second column
is entirely null. -/
def dfText : Frame :=
  ⟨["name", "empty"], [DType.utf8, DType.utf8],
   [[Cell.str "a", Cell.null], [Cell.str "b", Cell.null], [Cell.str "a", Cell.null]]⟩

/-- An 85-character compound `str()` form. -/
def longCompound : String :=
  String.mk (List.replicate 85 'x')

/-- A deterministic stand-in for the engine selection behind `df.sample`. -/
def engineHead : Frame → Nat → Option Int → Frame :=
  fun df n _ => plHead df (Int.ofNat n)

/-! ## Theorems

Helper lemmas first, then one theorem per claim. -/

/-- The first line of the list that is non-blank after stripping, itself
returned stripped — the line that the sniffer loop settles on. -/
def firstNonBlankStripped : List (List Char) → Option (List Char)
  | [] => none
  | l :: rest =>
    let s := pyStrip l
    if s.isEmpty then firstNonBlankStripped rest else some s

theorem sniffLines_eq_comma_of_none (lines : List (List Char))
    (h : firstNonBlankStripped lines = none) : sniffLines lines = "," := by
  induction lines with
  | nil => rfl
  | cons l rest ih =>
    by_cases hs : (pyStrip l).isEmpty
    · simp only [firstNonBlankStripped, hs, if_true] at h
      simp only [sniffLines, hs, if_true]
      exact ih h
    · simp [firstNonBlankStripped, hs] at h

theorem sniffLines_eq_choose_of_some (lines : List (List Char)) (l : List Char)
    (h : firstNonBlankStripped lines = some l) : sniffLines lines = chooseDelim l := by
  induction lines with
  | nil => simp [firstNonBlankStripped] at h
  | cons hd rest ih =>
    by_cases hs : (pyStrip hd).isEmpty
    · simp only [firstNonBlankStripped, hs, if_true] at h
      simp only [sniffLines, hs, if_true]
      exact ih h
    · simp [firstNonBlankStripped, hs] at h
      rw [h] at hs
      simp [sniffLines, h, hs]

theorem chooseDelim_eq_comma_of_zero (l : List Char)
    (h1 : l.count ',' = 0) (h2 : l.count '\t' = 0) (h3 : l.count ';' = 0) :
    chooseDelim l = "," := by
  simp [chooseDelim, h1, h2, h3]

theorem chooseDelim_eq_comma_of_max (l : List Char)
    (h1 : l.count '\t' < l.count ',') (h2 : l.count ';' < l.count ',') :
    chooseDelim l = "," := by
  simp only [chooseDelim]
  split_ifs with hz ht hm hmc <;>
    first
    | rfl
    | (exfalso; simp only [Bool.and_eq_true, decide_eq_true_eq] at hz; omega)
    | (exfalso; omega)

theorem chooseDelim_eq_tab_of_max (l : List Char)
    (h1 : l.count ',' < l.count '\t') (h2 : l.count ';' < l.count '\t') :
    chooseDelim l = "\t" := by
  simp only [chooseDelim]
  split_ifs with hz ht hm hmc <;>
    first
    | rfl
    | (exfalso; simp only [Bool.and_eq_true, decide_eq_true_eq] at hz; omega)
    | (exfalso; omega)

theorem chooseDelim_eq_semi_of_max (l : List Char)
    (h1 : l.count ',' < l.count ';') (h2 : l.count '\t' < l.count ';') :
    chooseDelim l = ";" := by
  simp only [chooseDelim]
  split_ifs with hz ht hm hmc <;>
    first
    | rfl
    | (exfalso; simp only [Bool.and_eq_true, decide_eq_true_eq] at hz; omega)
    | (exfalso; omega)

/-- C1: `sniff` scans to the first line that is non-blank after trimming
surrounding whitespace; it returns the candidate with the strictly highest
occurrence count on that (trimmed) line; when all three counts are zero, or
when no non-blank line exists before end-of-file, it returns comma.  A file
whose first line is blank and whose next line is `x;y;z` yields semicolon. -/
theorem claim_C1 :
    (∀ lines, firstNonBlankStripped lines = none → sniffLines lines = ",") ∧
    (∀ lines l, firstNonBlankStripped lines = some l →
      ((l.count ',' = 0 ∧ l.count '\t' = 0 ∧ l.count ';' = 0) → sniffLines lines = ",") ∧
      ((l.count '\t' < l.count ',' ∧ l.count ';' < l.count ',') → sniffLines lines = ",") ∧
      ((l.count ',' < l.count '\t' ∧ l.count ';' < l.count '\t') → sniffLines lines = "\t") ∧
      ((l.count ',' < l.count ';' ∧ l.count '\t' < l.count ';') → sniffLines lines = ";")) ∧
    sniff_delimiter (some [10, 120, 59, 121, 59, 122, 10]) = Except.ok ";" := by
  refine ⟨sniffLines_eq_comma_of_none, ?_, by rfl⟩
  intro lines l h
  refine ⟨?_, ?_, ?_, ?_⟩
  · intro hz
    rw [sniffLines_eq_choose_of_some lines l h]
    exact chooseDelim_eq_comma_of_zero l hz.1 hz.2.1 hz.2.2
  · intro hc
    rw [sniffLines_eq_choose_of_some lines l h]
    exact chooseDelim_eq_comma_of_max l hc.1 hc.2
  · intro hc
    rw [sniffLines_eq_choose_of_some lines l h]
    exact chooseDelim_eq_tab_of_max l hc.1 hc.2
  · intro hc
    rw [sniffLines_eq_choose_of_some lines l h]
    exact chooseDelim_eq_semi_of_max l hc.1 hc.2

/-- Witness for C1 at concrete inputs: a whitespace-only file yields comma,
and a file whose first non-blank line is `a;b;c` yields semicolon. -/
theorem claim_C1_witness :
    sniffLines [" ".toList] = "," ∧ sniffLines ["a;b;c".toList] = ";" :=
  ⟨claim_C1.1 [" ".toList] (by decide),
   (claim_C1.2.1 ["a;b;c".toList] "a;b;c".toList (by decide)).2.2.2 (by decide)⟩

theorem pyStrip_cons_of_space (c : Char) (l : List Char) (h : isPySpace c = true) :
    pyStrip (c :: l) = pyStrip l := by
  simp [pyStrip, List.dropWhile_cons, h]

theorem pyStrip_concat_of_space (l : List Char) (c : Char) (h : isPySpace c = true) :
    pyStrip (l ++ [c]) = pyStrip l := by
  unfold pyStrip
  rw [List.dropWhile_append]
  by_cases he : (l.dropWhile isPySpace).isEmpty = true
  · rw [if_pos he]
    rw [List.isEmpty_iff] at he
    rw [he]
    simp [List.dropWhile_cons, h]
  · rw [if_neg he]
    rw [List.reverse_append]
    simp [List.dropWhile_cons, h]

/-- C10: occurrence counting happens on the whitespace-trimmed line, so
delimiter characters at the edges of the first non-blank line are never
counted (wrapping any line in tabs changes nothing), a whitespace-only
line is skipped as blank, and a file whose only tab characters sit at the
line edges sniffs as comma. -/
theorem claim_C10 :
    (∀ (l : List Char) (rest : List (List Char)),
      sniffLines (('\t' :: (l ++ ['\t'])) :: rest) = sniffLines (l :: rest)) ∧
    sniffLines ["\tx\t".toList] = "," ∧
    sniffLines ["\t\t".toList, "a;b".toList] = ";" ∧
    sniff_delimiter (some [9, 120, 9, 10, 9, 121, 9]) = Except.ok "," := by
  refine ⟨?_, by rfl, by rfl, by rfl⟩
  intro l rest
  have h1 : pyStrip ('\t' :: (l ++ ['\t'])) = pyStrip l := by
    rw [pyStrip_cons_of_space _ _ (by rfl), pyStrip_concat_of_space _ _ (by rfl)]
  simp only [sniffLines, h1]

theorem chooseDelim_cases (l : List Char) :
    chooseDelim l = "," ∨ chooseDelim l = "\t" ∨ chooseDelim l = ";" := by
  simp only [chooseDelim]
  split_ifs <;> simp

theorem sniffLines_cases (lines : List (List Char)) :
    sniffLines lines = "," ∨ sniffLines lines = "\t" ∨ sniffLines lines = ";" := by
  induction lines with
  | nil => left; rfl
  | cons l rest ih =>
    by_cases hs : (pyStrip l).isEmpty
    · simpa only [sniffLines, hs, if_true] using ih
    · simpa only [sniffLines, hs, if_false] using chooseDelim_cases (pyStrip l)

/-- C5 counterexample: the claim says `sniff` never fails even when the
file cannot be opened; in the code, `open` raising is not handled — the
sniffer propagates the error instead of degrading to comma. -/
theorem claim_C5_counterexample :
    sniff_delimiter none = Except.error () ∧ ∀ d, sniff_delimiter none ≠ Except.ok d := by
  refine ⟨rfl, ?_⟩
  intro d h
  simp [sniff_delimiter] at h

/-- C5 as amended: once the file is opened, `sniff` never fails — invalid
text encoding is skipped permissively (`errors="ignore"`), scanning
continues for a usable line, and a totally undecodable file degrades to
comma; but a file that cannot be opened raises instead of degrading. -/
theorem claim_C5_amended :
    (∀ bytes : List Nat, ∃ d, sniff_delimiter (some bytes) = Except.ok d ∧
      (d = "," ∨ d = "\t" ∨ d = ";")) ∧
    sniff_delimiter (some [255, 254, 10, 97, 59, 98]) = Except.ok ";" ∧
    sniff_delimiter (some [255, 255]) = Except.ok "," := by
  refine ⟨?_, by rfl, by rfl⟩
  intro bytes
  exact ⟨_, rfl, sniffLines_cases _⟩

/-- C2 counterexample: the claim says `sample` never errors unless the
clamped result is zero, for every requested `n`.  But `--n -5` on the
10-row frame gives `min(-5, 10) = -5`, which passes the `n == 0` check,
and `df.sample(n=-5)` then raises in the engine (a negative count cannot
convert to an unsigned size) — an uncaught error with a non-zero clamped
result. -/
theorem claim_C2_counterexample :
    sampleEffSize (-5) df10.height = -5 ∧
    sampleEffSize (-5) df10.height ≠ 0 ∧
    sample engineHead df10 (-5) defaultSeed = CmdOutcome.raised ∧
    sample engineHead df10 (-5) defaultSeed ≠ CmdOutcome.exited 1 :=
  ⟨by decide, by decide, by rfl, by decide⟩

/-- C2 as amended: for every requested size `n ≥ 0`, the `sample` command
clamps the size to the available row count (`min(n, height)`, and 0 on an
empty frame); it exits with status 1 exactly when the clamped size is
zero and never errors (no exit, no engine exception) otherwise; and — the
engine sampler being a deterministic function of frame, size and seed —
two invocations on the same file with the same seed produce the same
rendered rows in the same order. -/
theorem claim_C2_amended (pick : Frame → Nat → Option Int → Frame) (df : Frame)
    (n : Int) (seed : Option Int) (hn : 0 ≤ n) :
    sampleEffSize n df.height ≤ (df.height : Int) ∧
    (sample pick df n seed = CmdOutcome.exited 1 ↔
      sampleEffSize n df.height = 0) ∧
    (sampleEffSize n df.height ≠ 0 →
      ∀ c, sample pick df n seed ≠ CmdOutcome.exited c) ∧
    (sampleEffSize n df.height ≠ 0 →
      sample pick df n seed ≠ CmdOutcome.raised) ∧
    (∀ df2 n2 seed2, df = df2 → n = n2 → seed = seed2 →
      sample pick df n seed = sample pick df2 n2 seed2) := by
  have hn2 : 0 ≤ sampleEffSize n df.height := by
    unfold sampleEffSize
    split_ifs <;> omega
  refine ⟨?_, ?_, ?_, ?_, ?_⟩
  · unfold sampleEffSize
    split_ifs <;> omega
  · by_cases h : sampleEffSize n df.height = 0
    · simp [sample, h]
    · cases seed with
      | some v => simp [sample, h, plSample, hn2]
      | none => simp [sample, h, plSample, hn2]
  · intro h c
    cases seed with
    | some v => simp [sample, h, plSample, hn2]
    | none => simp [sample, h, plSample, hn2]
  · intro h
    cases seed with
    | some v => simp [sample, h, plSample, hn2]
    | none => simp [sample, h, plSample, hn2]
  · intro df2 n2 seed2 e1 e2 e3
    rw [e1, e2, e3]

/-- Witness for C2 (amended), scenario D: `n = 100` requested on a 10-row
frame with the default seed — the effective size is 10, the command
neither exits nor raises, and a repeat invocation gives the same output. -/
theorem claim_C2_witness :
    sample engineHead df10 100 defaultSeed ≠ CmdOutcome.exited 1 ∧
    sample engineHead df10 100 defaultSeed ≠ CmdOutcome.raised ∧
    sample engineHead df10 100 defaultSeed = sample engineHead df10 100 defaultSeed ∧
    sampleEffSize 100 df10.height = 10 :=
  ⟨(claim_C2_amended engineHead df10 100 defaultSeed (by decide)).2.2.1 (by decide) 1,
   (claim_C2_amended engineHead df10 100 defaultSeed (by decide)).2.2.2.1 (by decide),
   (claim_C2_amended engineHead df10 100 defaultSeed (by decide)).2.2.2.2
     df10 100 defaultSeed rfl rfl rfl,
   by decide⟩

/-- C3: the destination format of `convert` is the `--to-format` override
when given (used verbatim), else the destination extension lowercased with
its leading dot stripped, with the `jsonl`→`ndjson` and `pq`→`parquet`
aliases applied to the result of either; an unrecognized resolved format
makes `convert` exit with status 2 without writing anything, and a
recognized one dispatches to the matching writer. -/
theorem claim_C3 :
    (∀ f dst, f ≠ "" → resolveOutFmt (some f) dst = aliasDst f) ∧
    (∀ dst, resolveOutFmt none dst =
      aliasDst (pyLStripDots (pyLower (pySplitext dst).2))) ∧
    (∀ fmtDst dst delim,
      (resolveOutFmt fmtDst dst ≠ "csv" → resolveOutFmt fmtDst dst ≠ "parquet" →
        resolveOutFmt fmtDst dst ≠ "ndjson" →
        convert fmtDst dst delim = ConvertOutcome.exited 2) ∧
      (resolveOutFmt fmtDst dst = "csv" →
        convert fmtDst dst delim = ConvertOutcome.wroteCsv dst
          (match delim with
           | some d => if d ≠ "" then d else ","
           | none => ",")) ∧
      (resolveOutFmt fmtDst dst = "parquet" →
        convert fmtDst dst delim = ConvertOutcome.wroteParquet dst) ∧
      (resolveOutFmt fmtDst dst = "ndjson" →
        convert fmtDst dst delim = ConvertOutcome.wroteNdjson dst)) := by
  refine ⟨?_, ?_, ?_⟩
  · intro f dst hf
    simp [resolveOutFmt, hf]
  · intro dst
    rfl
  · intro fmtDst dst delim
    refine ⟨?_, ?_, ?_, ?_⟩
    · intro h1 h2 h3
      simp [convert, h1, h2, h3]
    · intro h
      simp only [convert]
      rw [if_pos h]
    · intro h
      simp [convert, h]
    · intro h
      simp [convert, h]

/-- Witness for C3 at concrete inputs: the `jsonl` alias on an explicit
override, exit 2 for an `xml` destination, and an uppercase `.CSV`
extension resolving to the csv writer. -/
theorem claim_C3_witness :
    resolveOutFmt (some "jsonl") "o.csv" = aliasDst "jsonl" ∧
    convert (some "xml") "o.xml" none = ConvertOutcome.exited 2 ∧
    convert none "o.CSV" none = ConvertOutcome.wroteCsv "o.CSV" "," :=
  ⟨claim_C3.1 "jsonl" "o.csv" (by decide),
   (claim_C3.2.2 (some "xml") "o.xml" none).1 (by decide) (by decide) (by decide),
   (claim_C3.2.2 none "o.CSV" none).2.1 (by decide)⟩

/-- C4: `detect_format` is a pure function; a non-empty override is
lowercased and returned verbatim with no validation, always winning over
the extension; otherwise the lowercased extension picks csv / ndjson /
parquet and anything else defaults to csv; an unsupported resolved tag
surfaces later as the `Unsupported format` error of the loader. -/
theorem claim_C4 :
    (∀ p f, f ≠ "" → detect_format p (some f) = pyLower f) ∧
    (∀ p f p2 f2, p = p2 → f = f2 → detect_format p f = detect_format p2 f2) ∧
    (∀ p,
      ((pyLower (pySplitext p).2 = ".csv" ∨ pyLower (pySplitext p).2 = ".tsv") →
        detect_format p none = "csv") ∧
      ((pyLower (pySplitext p).2 = ".jsonl" ∨ pyLower (pySplitext p).2 = ".ndjson") →
        detect_format p none = "ndjson") ∧
      ((pyLower (pySplitext p).2 = ".parquet" ∨ pyLower (pySplitext p).2 = ".pq") →
        detect_format p none = "parquet") ∧
      (¬ (pyLower (pySplitext p).2 ∈
          ([".csv", ".tsv", ".jsonl", ".ndjson", ".parquet", ".pq"] : List String)) →
        detect_format p none = "csv")) ∧
    (∀ (file : Option (List Nat)) p fmt d isl,
      detect_format p fmt ≠ "csv" → detect_format p fmt ≠ "ndjson" →
      detect_format p fmt ≠ "parquet" →
      read_frame file p fmt d isl =
        Except.error (LoadError.unsupportedFormat (detect_format p fmt))) := by
  refine ⟨?_, ?_, ?_, ?_⟩
  · intro p f hf
    simp [detect_format, hf]
  · intro p f p2 f2 e1 e2
    rw [e1, e2]
  · intro p
    refine ⟨?_, ?_, ?_, ?_⟩
    · rintro (h | h) <;> simp [detect_format, detectFromExt, h]
    · rintro (h | h) <;> simp [detect_format, detectFromExt, h]
    · rintro (h | h) <;> simp [detect_format, detectFromExt, h]
    · intro h
      simp only [List.mem_cons, List.not_mem_nil, or_false, not_or] at h
      obtain ⟨h1, h2, h3, h4, h5, h6⟩ := h
      simp [detect_format, detectFromExt, h1, h2, h3, h4, h5, h6]
  · intro file p fmt d isl h1 h2 h3
    simp [read_frame, h1, h2, h3]

/-- Witness for C4 at concrete inputs: override lowercased and winning
over the extension, each extension group, the default, and the loader
error on an unsupported override. -/
theorem claim_C4_witness :
    detect_format "d.bin" (some "CSV") = pyLower "CSV" ∧
    detect_format "d.TSV" none = "csv" ∧
    detect_format "d.ndjson" none = "ndjson" ∧
    detect_format "d.PQ" none = "parquet" ∧
    detect_format "d.xyz" none = "csv" ∧
    read_frame none "d.csv" (some "weird") none 2048 =
      Except.error (LoadError.unsupportedFormat (detect_format "d.csv" (some "weird"))) :=
  ⟨claim_C4.1 "d.bin" "CSV" (by decide),
   (claim_C4.2.2.1 "d.TSV").1 (by decide),
   (claim_C4.2.2.1 "d.ndjson").2.1 (by decide),
   (claim_C4.2.2.1 "d.PQ").2.2.1 (by decide),
   (claim_C4.2.2.1 "d.xyz").2.2.2 (by decide),
   claim_C4.2.2.2 none "d.csv" (some "weird") none 2048 (by decide) (by decide) (by decide)⟩

/-- C6 counterexample: with `max_rows = -1` (the CLI option `--rows` accepts any
int), `render_table` on an empty frame emits 0 data rows, and 0 exceeds
-1 — so "emits at most max_rows rows for every max_rows" is false as
stated.  (With a negative bound the `df.height > max_rows` test always
fires and polars `head` with a negative argument keeps all but the last
`|n|` rows, so positive row counts are possible too.) -/
theorem claim_C6_counterexample :
    ((render_table dfEmptyA (-1)).cells.length : Int) = 0 ∧
    ¬ ((render_table dfEmptyA (-1)).cells.length : Int) ≤ -1 := by
  refine ⟨by rfl, ?_⟩
  intro h
  have : ((render_table dfEmptyA (-1)).cells.length : Int) = 0 := by rfl
  omega

/-- C6 as amended: for every frame and every `max_rows ≥ 0`, `render_table`
emits at most `max_rows` data rows, and the rows it emits are exactly the
first `min max_rows height` rows of the frame in their original order. -/
theorem claim_C6_amended (df : Frame) (mr : Int) (h : 0 ≤ mr) :
    ((render_table df mr).cells.length : Int) ≤ mr ∧
    (render_table df mr).cells =
      (df.rows.take (min mr.toNat df.height)).map (fun r => r.map repr_cell) := by
  unfold render_table
  by_cases hlt : mr < (df.height : Int)
  · rw [if_pos hlt]
    unfold plHead Frame.height at hlt ⊢
    rw [if_pos h]
    constructor
    · simp only [List.length_map, List.length_take]
      omega
    · simp only [List.map_take]
      have hmin : min mr.toNat df.rows.length = mr.toNat := by omega
      rw [hmin]
  · rw [if_neg hlt]
    unfold Frame.height at hlt ⊢
    constructor
    · simp only [List.length_map]
      omega
    · have hmin : min mr.toNat df.rows.length = df.rows.length := by omega
      rw [hmin, List.take_length]

/-- Witness for C6 (amended) at a concrete input: the 10-row frame
truncated to 3 rendered rows. -/
theorem claim_C6_witness :
    ((render_table df10 3).cells.length : Int) ≤ 3 ∧
    (render_table df10 3).cells =
      (df10.rows.take (min (3 : Int).toNat df10.height)).map (fun r => r.map repr_cell) :=
  claim_C6_amended df10 3 (by decide)

/-- C7: `repr_cell` sends a missing value to the distinguished marker
string, a float to its 6-significant-digit general-format form, a
compound (`list`/`tuple`/`set`/`dict`) value to its generic string form
unchanged when it is at most 80 characters and to its first 77 characters
plus a 3-character ellipsis otherwise (never exceeding 80 characters), and
every other value to its default string form unmodified. -/
theorem claim_C7 :
    repr_cell Cell.null = nullMarker ∧
    (∀ x, repr_cell (Cell.float x) = formatG6 x) ∧
    repr_cell (Cell.float ⟨5, -1⟩) = "0.5" ∧
    repr_cell (Cell.float ⟨1234567, 0⟩) = "1.23457e+06" ∧
    repr_cell (Cell.float ⟨3, 0⟩) = "3" ∧
    (∀ s : String, s.length ≤ 80 → repr_cell (Cell.compound s) = s) ∧
    (∀ s : String, 80 < s.length →
      repr_cell (Cell.compound s) = String.mk (s.toList.take 77) ++ "..." ∧
      (repr_cell (Cell.compound s)).length = 80) ∧
    (∀ s : String, (repr_cell (Cell.compound s)).length ≤ 80) ∧
    (∀ n, repr_cell (Cell.int n) = toString n) ∧
    (∀ s, repr_cell (Cell.str s) = s) ∧
    (∀ s, repr_cell (Cell.other s) = s) := by
  have hlen : ∀ s : String, s.toList.length = s.length := fun s => rfl
  have htrunc : ∀ s : String, 80 < s.length →
      repr_cell (Cell.compound s) = String.mk (s.toList.take 77) ++ "..." := by
    intro s hs
    simp only [repr_cell]
    rw [if_neg (by omega)]
  refine ⟨rfl, fun x => rfl, by rfl, by rfl, by rfl, ?_, ?_, ?_,
    fun n => rfl, fun s => rfl, fun s => rfl⟩
  · intro s hs
    simp only [repr_cell]
    rw [if_pos hs]
  · intro s hs
    refine ⟨htrunc s hs, ?_⟩
    rw [htrunc s hs]
    rw [String.length_append]
    have h77 : (String.mk (s.toList.take 77)).length = 77 := by
      show (s.toList.take 77).length = 77
      rw [List.length_take]
      have := hlen s
      omega
    rw [h77]
    decide
  · intro s
    by_cases hs : s.length ≤ 80
    · simp only [repr_cell]
      rw [if_pos hs]
      omega
    · have h80 : 80 < s.length := by omega
      rw [htrunc s h80, String.length_append]
      have h77 : (String.mk (s.toList.take 77)).length = 77 := by
        show (s.toList.take 77).length = 77
        rw [List.length_take]
        have := hlen s
        omega
      rw [h77]
      decide

/-- Witness for C7 at concrete inputs: a short compound value passes
through unchanged, an 85-character one is cut to exactly 80 characters. -/
theorem claim_C7_witness :
    repr_cell (Cell.compound "[1, 2, 3]") = "[1, 2, 3]" ∧
    repr_cell (Cell.compound longCompound) =
      String.mk (longCompound.toList.take 77) ++ "..." ∧
    (repr_cell (Cell.compound longCompound)).length = 80 :=
  ⟨(claim_C7.2.2.2.2.2.1 "[1, 2, 3]") (by decide),
   ((claim_C7.2.2.2.2.2.2.1 longCompound) (by decide)).1,
   ((claim_C7.2.2.2.2.2.2.1 longCompound) (by decide)).2⟩

/-- C9 (implicit): the `--to-format` override of `convert` is used without
lowercasing, unlike `--from-format` (which goes through `detect_format`)
and unlike an extension-derived destination token: `"CSV"` as destination
override resolves to the unsupported format `"CSV"` and exits with status
2, while the same token as source override or as destination extension is
accepted. -/
theorem claim_C9 :
    resolveOutFmt (some "CSV") "out.bin" = "CSV" ∧
    convert (some "CSV") "out.bin" none = ConvertOutcome.exited 2 ∧
    detect_format "in.csv" (some "CSV") = "csv" ∧
    read_frame (some [97, 44, 98]) "in.csv" (some "CSV") (some ",") 2048 =
      Except.ok (LoadAction.csvRead "," 2048) ∧
    resolveOutFmt none "out.CSV" = "csv" ∧
    convert none "out.CSV" none = ConvertOutcome.wroteCsv "out.CSV" "," := by
  refine ⟨rfl, rfl, rfl, rfl, rfl, rfl⟩

theorem dcStep_ne_nil (acc : List (Cell × Nat)) (v : Cell) (h : acc ≠ []) :
    dcStep acc v ≠ [] := by
  unfold dcStep
  split_ifs with ha
  · simp [h]
  · simp

theorem foldl_dcStep_ne_nil (vals : List Cell) :
    ∀ acc, acc ≠ [] → vals.foldl dcStep acc ≠ [] := by
  induction vals with
  | nil => intro acc h; simpa using h
  | cons v rest ih =>
    intro acc h
    rw [List.foldl_cons]
    exact ih _ (dcStep_ne_nil acc v h)

theorem distinctCounts_ne_nil (vals : List Cell) (h : vals ≠ []) :
    distinctCounts vals ≠ [] := by
  cases vals with
  | nil => exact absurd rfl h
  | cons v rest =>
    show (v :: rest).foldl dcStep [] ≠ []
    rw [List.foldl_cons]
    apply foldl_dcStep_ne_nil
    simp [dcStep]

theorem insertDesc_length (x : Cell × Nat) (l : List (Cell × Nat)) :
    (insertDesc x l).length = l.length + 1 := by
  induction l with
  | nil => rfl
  | cons y ys ih =>
    unfold insertDesc
    split_ifs <;> simp [ih]

theorem sortByCountDesc_length (l : List (Cell × Nat)) :
    (sortByCountDesc l).length = l.length := by
  induction l with
  | nil => rfl
  | cons x xs ih =>
    unfold sortByCountDesc
    rw [insertDesc_length, ih, List.length_cons]

theorem sortByCountDesc_ne_nil (l : List (Cell × Nat)) (h : l ≠ []) :
    sortByCountDesc l ≠ [] := by
  intro hn
  apply h
  have hl := sortByCountDesc_length l
  rw [hn] at hl
  exact List.length_eq_zero.mp hl.symm

theorem filter_ne_nil_iff_any (vals : List Cell) (p : Cell → Bool) :
    vals.filter p ≠ [] ↔ vals.any p = true := by
  induction vals with
  | nil => simp
  | cons v rest ih =>
    by_cases hv : p v
    · simp [List.filter_cons, List.any_cons, hv]
    · simp [List.filter_cons, List.any_cons, hv, ih]

theorem freqTable_ne_nil_iff (vals : List Cell) (topk : Int) (h : 1 ≤ topk) :
    freqTable vals topk ≠ [] ↔ vals.filter (fun v => v ≠ Cell.null) ≠ [] := by
  unfold freqTable plHeadList
  rw [if_pos (by omega : (0 : Int) ≤ topk)]
  constructor
  · intro hne hfil
    apply hne
    rw [hfil]
    simp [distinctCounts, sortByCountDesc]
  · intro hfil ht
    have hd := distinctCounts_ne_nil _ hfil
    have hs := sortByCountDesc_ne_nil _ hd
    rw [List.take_eq_nil_iff] at ht
    rcases ht with h0 | h0
    · omega
    · exact hs h0

/-- C8: on a frame with no numeric column, `stats` emits the warning panel
and no numeric-summary table, and then exactly one top-`k` table per
Utf8 column having at least one non-null value (and none for a Utf8
column whose values are all null). -/
theorem claim_C8 (df : Frame) (topk : Int) (h1 : numColNames df = []) (h2 : 1 ≤ topk) :
    StatsEvent.noNumericWarning ∈ stats df topk ∧
    (∀ cols, StatsEvent.numericSummary cols ∉ stats df topk) ∧
    stats df topk = StatsEvent.noNumericWarning ::
      ((df.colNames.zip df.dtypes).enum.filter (fun p => is_utf8_dtype p.2.2)).filterMap
        (fun p =>
          if (colValues df p.1).any (fun v => v ≠ Cell.null) then
            some (StatsEvent.topkTable p.2.1 (freqTable (colValues df p.1) topk))
          else none) := by
  have hfun : (fun p : Nat × (String × DType) =>
        if (freqTable (colValues df p.1) topk).length ≠ 0 then
          some (StatsEvent.topkTable p.2.1 (freqTable (colValues df p.1) topk))
        else none) =
      (fun p : Nat × (String × DType) =>
        if (colValues df p.1).any (fun v => v ≠ Cell.null) then
          some (StatsEvent.topkTable p.2.1 (freqTable (colValues df p.1) topk))
        else none) := by
    funext p
    have hiff : (freqTable (colValues df p.1) topk).length ≠ 0 ↔
        (colValues df p.1).any (fun v => v ≠ Cell.null) = true := by
      rw [Ne, List.length_eq_zero]
      exact (freqTable_ne_nil_iff _ _ h2).trans (filter_ne_nil_iff_any _ _)
    exact if_congr hiff rfl rfl
  have heq : stats df topk = StatsEvent.noNumericWarning ::
      ((df.colNames.zip df.dtypes).enum.filter (fun p => is_utf8_dtype p.2.2)).filterMap
        (fun p =>
          if (colValues df p.1).any (fun v => v ≠ Cell.null) then
            some (StatsEvent.topkTable p.2.1 (freqTable (colValues df p.1) topk))
          else none) := by
    unfold stats
    rw [if_neg (fun hc => hc h1), hfun]
    rfl
  refine ⟨?_, ?_, heq⟩
  · rw [heq]
    exact List.mem_cons_self _ _
  · intro cols hmem
    rw [heq] at hmem
    rcases List.mem_cons.mp hmem with hc | hc
    · exact StatsEvent.noConfusion hc
    · obtain ⟨p, _, hp⟩ := List.mem_filterMap.mp hc
      split_ifs at hp
      exact StatsEvent.noConfusion (Option.some.inj hp)

/-- Witness for C8: a frame with two Utf8 columns and no numeric column;
the all-null column gets no table, the populated one gets its top-5
table. -/
theorem claim_C8_witness :
    StatsEvent.noNumericWarning ∈ stats dfText 5 ∧
    (∀ cols, StatsEvent.numericSummary cols ∉ stats dfText 5) ∧
    stats dfText 5 = StatsEvent.noNumericWarning ::
      ((dfText.colNames.zip dfText.dtypes).enum.filter (fun p => is_utf8_dtype p.2.2)).filterMap
        (fun p =>
          if (colValues dfText p.1).any (fun v => v ≠ Cell.null) then
            some (StatsEvent.topkTable p.2.1 (freqTable (colValues dfText p.1) 5))
          else none) :=
  claim_C8 dfText 5 (by decide) (by decide)

end Peektab
